import Mathlib

/-!
Verification of the sentinel-auditor specification against the repository.

The repository ships two artifacts: the Python evaluation/enforcement core
(described by `api/` in the README; the `.py` sources are not part of this
tree, so those components are modelled from the specification text) and the
Next.js dashboard (whose middleware and home page are present as TypeScript
sources and are translated directly).

Shallow embedding conventions: the shared Redis keyspace is a record of
per-key maps `String → Option value`; TTLs are modelled as absolute expiry
times in seconds (`Nat`), with reads treating an expired key as absent,
matching Redis expiry semantics.  Model/LLM capabilities are opaque
function parameters, matching the spec's "evaluate(context) → verdict"
treatment.
-/

namespace SentinelAuditor

/-- Ban states stored under the `blacklist:` key.  Absence of the key is the
NONE state of the spec's state machine. -/
inductive BanState where
  | PROVISIONAL
  | CONFIRMED
deriving DecidableEq

/-- Decision component of a verdict. -/
inductive Decision where
  | ALLOW
  | BLOCK
deriving DecidableEq

/-- Verdict emitted by the Judgment or Escalation stage. -/
structure Verdict where
  decision : Decision
  confidence : Nat
  rationale : String
  sourceStage : String
deriving DecidableEq

/-- Modelled from the spec: shared Redis store of `api/agents/enforcer.py`
(not in the tree).  `ban` holds the per-actor ban record (state, expiry),
`strikes` the per-actor strike counter (count, expiry), `rate` the per-actor
rate-limit window counter (count, expiry). -/
structure Store where
  ban : String → Option (BanState × Nat)
  strikes : String → Option (Nat × Nat)
  rate : String → Option (Nat × Nat)

/-- Store with no keys set. -/
def emptyStore : Store :=
  { ban := fun _ => none, strikes := fun _ => none, rate := fun _ => none }

/-- Strike-counter TTL of 7 days, in seconds. -/
def strikeTTL : Nat := 604800

/-- Modelled from the spec: ban TTL tier selected from the post-increment
strike count — strikes 1–2 give a 1-hour ban, 3 or more a 24-hour ban. -/
def banTTLFor (postStrikes : Nat) : Nat :=
  if postStrikes ≤ 2 then 3600 else 86400

/-- Current strike count for an actor: an expired (or absent) strike key
reads as 0, matching Redis expiry. -/
def currentStrikes (now : Nat) (st : Store) (a : String) : Nat :=
  match st.strikes a with
  | some (n, exp2) => if now < exp2 then n else 0
  | none => 0

/-- Current ban record for an actor: an expired key reads as absent (NONE). -/
def currentBan (now : Nat) (st : Store) (a : String) : Option (BanState × Nat) :=
  match st.ban a with
  | some (b, e) => if now < e then some (b, e) else none
  | none => none

/-- Monotonically comparable ban strength plus expiry, as required by the
spec's ordering rule NONE < PROVISIONAL < CONFIRMED. -/
def banRank : Option (BanState × Nat) → Nat × Nat
  | none => (0, 0)
  | some (BanState.PROVISIONAL, e) => (1, e)
  | some (BanState.CONFIRMED, e) => (2, e)

/-- Lexicographic "stronger or newer" comparison on (strength, expiry). -/
def strongerThan (nw old : Nat × Nat) : Bool :=
  old.1 < nw.1 || (nw.1 = old.1 && old.2 < nw.2)

/-- Modelled from the spec: the single atomic conditional write on the ban
key — write only if the new (strength, expiry) is strictly stronger/newer
than the current one, so re-confirmation with an equal-or-lesser TTL is a
no-op and a stale write never overwrites a newer state. -/
def condSetBan (now : Nat) (st : Store) (a : String) (b : BanState) (exp2 : Nat) : Store :=
  if strongerThan (banRank (some (b, exp2))) (banRank (currentBan now st a)) then
    { st with ban := fun u => if u = a then some (b, exp2) else st.ban u }
  else st

/-- Modelled from the spec: the confirm transition of the Enforcer
(`api/agents/enforcer.py`, not in the tree).  Increments the actor's strike
counter (creating it, or extending its TTL to 7 days from now), then
conditionally writes a CONFIRMED ban whose TTL is selected from the
post-increment strike count. -/
def confirmBlock (now : Nat) (st : Store) (a : String) : Store :=
  let n := currentStrikes now st a + 1
  let st1 := { st with strikes := fun u => if u = a then some (n, now + strikeTTL) else st.strikes u }
  condSetBan now st1 a BanState.CONFIRMED (now + banTTLFor n)

/-- Modelled from the spec: a pardon deletes the ban key and touches nothing
else — in particular the strike counter keeps its value and TTL. -/
def pardon (st : Store) (a : String) : Store :=
  { st with ban := fun u => if u = a then none else st.ban u }

/-- Modelled from the spec: the Enforcer transition driven by the final
verdict for an event — BLOCK confirms, ALLOW pardons when a ban (provisional
or confirmed) is present and otherwise does nothing. -/
def enforce (now : Nat) (st : Store) (a : String) (v : Verdict) : Store :=
  match v.decision with
  | Decision.BLOCK => confirmBlock now st a
  | Decision.ALLOW => if (currentBan now st a).isSome then pardon st a else st

/-- Modelled from the spec: sliding-window admission of the Rate Limiter
(`admit(actorId)` of `api/agents/enforcer.py`, not in the tree).  A counter
keyed by actor with a fixed TTL set on the first request of a window;
within the window the counter is incremented while below capacity 5, and
the request beyond capacity is rejected without mutating further state. -/
def admission (now : Nat) (st : Store) (a : String) : Bool × Store :=
  match st.rate a with
  | some (c, exp2) =>
    if now < exp2 then
      if c < 5 then
        (true, { st with rate := fun u => if u = a then some (c + 1, exp2) else st.rate u })
      else
        (false, st)
    else
      (true, { st with rate := fun u => if u = a then some (1, now + 60) else st.rate u })
  | none =>
    (true, { st with rate := fun u => if u = a then some (1, now + 60) else st.rate u })

/-- Sequence of admission requests at the given times, oldest first. -/
def admissionRun (ts : List Nat) (st : Store) (a : String) : List Bool × Store :=
  match ts with
  | [] => ([], st)
  | t :: ts2 =>
    let p := admission t st a
    let q := admissionRun ts2 p.2 a
    (p.1 :: q.1, q.2)

/-- Immutable event as handed to the pipeline (spec §3/§6): identifier,
actor identity, action context (type, destination country, amount) and
upstream risk score. -/
structure Event where
  eventId : String
  actorId : String
  actionType : String
  country : String
  amount : Nat
  riskScore : Nat
deriving DecidableEq

/-- Triage stage output: a normalized risk summary plus search terms. -/
structure TriageOutput where
  riskSummary : String
  searchTerms : List String
deriving DecidableEq

/-- Modelled from the spec: amount bracket used by the deterministic
heuristic fallback of Triage (`api/agents/triage.py`, not in the tree). -/
def amountBracket (amount : Nat) : String :=
  if amount < 1000 then "low" else if amount < 10000 then "medium" else "high"

/-- Modelled from the spec: deterministic heuristic extraction used when the
model output fails to parse — action type + country + amount bracket. -/
def heuristicTriage (e : Event) : TriageOutput :=
  { riskSummary := "heuristic:" ++ e.actionType ++ ":" ++ e.country ++ ":" ++ amountBracket e.amount
  , searchTerms := [e.actionType, e.country, amountBracket e.amount] }

/-- Modelled from the spec: Triage recovery — a parsed model output is used
as is, a parse failure (`none`) falls back to the deterministic heuristic,
so a malformed model response is never fatal. -/
def runTriage (parsed : Option TriageOutput) (e : Event) : TriageOutput :=
  match parsed with
  | some o => o
  | none => heuristicTriage e

/-- RetrievedPolicy row: (policy identifier, text, similarity score). -/
structure RetrievedPolicy where
  policyId : String
  text : String
  similarity : Nat
deriving DecidableEq

/-- Payload of one audit-trace record. -/
inductive StageOutput where
  | triageOut : TriageOutput → StageOutput
  | policiesOut : List RetrievedPolicy → StageOutput
  | verdictOut : Verdict → StageOutput
deriving DecidableEq

/-- One record of the audit trace: stage name, status, output payload. -/
structure StageRecord where
  stage : String
  status : String
  output : StageOutput
deriving DecidableEq

/-- Audit trace for one event: the event identifier and the per-stage
records in pipeline order. -/
structure Trace where
  eventId : String
  records : List StageRecord
deriving DecidableEq

/-- Modelled from the spec: the opaque external capabilities of the
pipeline stages (fast model, vector search, high-fidelity model), passed as
deterministic stand-ins exactly as §9 of the spec prescribes.  `triageRaw`
is the parse result of the fast model's Triage output (`none` models a
ParseFailure). -/
structure Env where
  triageRaw : Event → Option TriageOutput
  retrieve : List String → List RetrievedPolicy
  judge : Event → List RetrievedPolicy → Verdict
  escalate : Event → List RetrievedPolicy → Verdict → Verdict

/-- State visible to the Orchestrator: the shared store plus the persisted
traces keyed by event identifier. -/
structure SysState where
  store : Store
  traces : String → Option Trace

/-- Modelled from the spec: the confidence-gated escalation protocol —
escalate iff the Judgment confidence is below 90; the escalation verdict
supersedes Judgment's for enforcement, and both are recorded. -/
def verdictPhase (jv : Verdict) (esc : Verdict → Verdict) : Verdict × List StageRecord :=
  if jv.confidence < 90 then
    let ev := esc jv
    (ev, [⟨"JUDGE", "COMPLETED", StageOutput.verdictOut jv⟩,
          ⟨"CISO", "COMPLETED", StageOutput.verdictOut ev⟩])
  else
    (jv, [⟨"JUDGE", "COMPLETED", StageOutput.verdictOut jv⟩])

/-- Policies retrieved for an event through the pipeline's first two
stages. -/
def pipelinePolicies (env : Env) (e : Event) : List RetrievedPolicy :=
  env.retrieve (runTriage (env.triageRaw e) e).searchTerms

/-- Judgment verdict for an event through the pipeline's first three
stages. -/
def pipelineJudgment (env : Env) (e : Event) : Verdict :=
  env.judge e (pipelinePolicies env e)

/-- Modelled from the spec: `process(event)` of the Orchestrator
(`api/main.py`, not in the tree).  If a trace already exists for the event
identifier it is returned unchanged (idempotency short-circuit); otherwise
the stages run in order Triage → Retrieval → Judgment → (Escalation) →
Enforcer and the trace is persisted. -/
def process (env : Env) (now : Nat) (s : SysState) (e : Event) : SysState × Trace :=
  match s.traces e.eventId with
  | some tr => (s, tr)
  | none =>
    let t := runTriage (env.triageRaw e) e
    let ps := env.retrieve t.searchTerms
    let jv := env.judge e ps
    let vp := verdictPhase jv (env.escalate e ps)
    let tr : Trace :=
      ⟨e.eventId, ⟨"TRIAGE", "COMPLETED", StageOutput.triageOut t⟩ ::
                  ⟨"INTEL", "COMPLETED", StageOutput.policiesOut ps⟩ :: vp.2⟩
    (⟨enforce now s.store e.actorId vp.1,
      fun i => if i = e.eventId then some tr else s.traces i⟩, tr)

/-- Ban key name in the shared keyspace (README: `blacklist:` + user id,
global, no prefix private to this system). -/
def blacklistKey (userId : String) : String := "blacklist:" ++ userId

/-- Strike key name in the shared keyspace (README: `global_strikes:` +
user id, global, no prefix private to this system). -/
def strikesKey (userId : String) : String := "global_strikes:" ++ userId

/-- Rate-limit key name (README: prefixed `auditor:rate_limit:` + user id,
a prefix private to this system). -/
def rateLimitKey (userId : String) : String := "auditor:rate_limit:" ++ userId

/-- Instance-local namespace marker of this system's keys. -/
def auditorScope : String := "auditor:"

/-- Whether a key name carries the instance-local namespace marker. -/
def isInstanceLocal (k : String) : Bool :=
  auditorScope.data.isPrefixOf k.data

/-- Fixture: event of the spec's scenarios (risk score as percentage). -/
def ev0 : Event := ⟨"e1", "u1", "transfer", "IR", 50000, 92⟩

/-- Fixture: final ALLOW verdict. -/
def v0 : Verdict := ⟨Decision.ALLOW, 95, "override", "JUDGE"⟩

/-- Fixture: store holding a provisional ban for actor u1, as set by the
upstream scorer. -/
def stP : Store :=
  { emptyStore with ban := fun u => if u = "u1" then some (BanState.PROVISIONAL, 300) else none }

/-- Fixture: an already-persisted trace for event e1. -/
def tr0 : Trace := ⟨"e1", []⟩

/-- Fixture: deterministic stand-in capabilities with a confident Judgment. -/
def env0 : Env :=
  ⟨fun _ => none, fun _ => [], fun _ _ => ⟨Decision.BLOCK, 95, "policy FIN-07", "JUDGE"⟩,
   fun _ _ _ => ⟨Decision.BLOCK, 70, "escalated", "CISO"⟩⟩

/-- Fixture: stand-in capabilities whose Judgment is under the threshold. -/
def envLow : Env :=
  ⟨fun _ => none, fun _ => [], fun _ _ => ⟨Decision.BLOCK, 70, "unsure", "JUDGE"⟩,
   fun _ _ _ => ⟨Decision.ALLOW, 40, "cleared", "CISO"⟩⟩

/-- Fixture: system state whose trace table already holds e1. -/
def s0 : SysState := ⟨emptyStore, fun i => if i = "e1" then some tr0 else none⟩

/-- Fixture: system state with a provisional ban and no traces. -/
def s1 : SysState := ⟨stP, fun _ => none⟩

end SentinelAuditor

namespace Dashboard

/-- Translated from src/unnamed/part_001 (`getJwtSecret`): the environment
variable `SUPABASE_JWT_SECRET` is read; a missing or empty value yields an
empty key (`new Uint8Array(0)`), otherwise the secret's encoded bytes.
`textEncode` models `TextEncoder.encode`; only emptiness matters here and
encoding a character per code point preserves it. -/
def textEncode (s : String) : List Nat :=
  s.data.map Char.toNat

/-- Translated from src/unnamed/part_001 (`getJwtSecret`): JS truthiness of
`process.env.SUPABASE_JWT_SECRET` — both an unset variable and the empty
string take the fallback branch returning the empty key. -/
def getJwtSecret (envSecret : Option String) : List Nat :=
  match envSecret with
  | none => []
  | some s => if s = "" then [] else textEncode s

/-- Translated from src/unnamed/part_001 (`verifyJwt`): with an empty key
the function returns valid=true without calling `jwtVerify`; otherwise the
result of `jwtVerify` decides (`jwtVerifyOk` abstracts its success —
`true` means the signature check succeeded, `false` that it threw). -/
def verifyJwt (envSecret : Option String) (jwtVerifyOk : String → Bool) (token : String) : Bool :=
  let secret := getJwtSecret envSecret
  if secret.length = 0 then true
  else jwtVerifyOk token

/-- Translated from src/unnamed/part_003: one row of `audit_logs` as kept in
the `logsMap` state — row id, creation time, and the payload's `event_id`
(the map key).  `created_at` is the timestamp in milliseconds. -/
structure LogEntry where
  id : Nat
  created_at : Nat
  event_id : String
deriving DecidableEq

/-- Whether the map already holds an entry for this `event_id`
(`Map.has`). -/
def hasEventId (m : List LogEntry) (eid : String) : Bool :=
  m.any (fun l => l.event_id == eid)

/-- Translated from src/unnamed/part_003: both the initial-fetch merge and
the realtime INSERT handler add a row only if its `event_id` is not already
present (`Map.set` guarded by `Map.has`). -/
def insertIfAbsent (m : List LogEntry) (l : LogEntry) : List LogEntry :=
  if hasEventId m l.event_id then m else m ++ [l]

/-- Translated from src/unnamed/part_003 (`fetchInitial`): each fetched row
is merged with the only-add-if-absent rule. -/
def applyFetch (m : List LogEntry) (rows : List LogEntry) : List LogEntry :=
  rows.foldl insertIfAbsent m

/-- State updates performed by the Home component: the initial fetch merge
and the realtime INSERT handler. -/
inductive DashUpdate where
  | fetch : List LogEntry → DashUpdate
  | realtimeInsert : LogEntry → DashUpdate

/-- Dispatch of one state update on `logsMap`. -/
def applyUpdate (m : List LogEntry) : DashUpdate → List LogEntry
  | DashUpdate.fetch rows => applyFetch m rows
  | DashUpdate.realtimeInsert l => insertIfAbsent m l

/-- Comparator of the rendered list: newest (largest `created_at`) first,
`(a, b) => new Date(b.created_at) - new Date(a.created_at)`. -/
def newerFirst (a b : LogEntry) : Bool :=
  b.created_at ≤ a.created_at

/-- Translated from src/unnamed/part_003 (the `logs` memo): map values
sorted by `created_at` descending, then `slice(0, 25)`. -/
def renderLogs (m : List LogEntry) : List LogEntry :=
  (m.mergeSort newerFirst).take 25

end Dashboard

namespace SentinelAuditor

theorem condSetBan_strikes (now : Nat) (st : Store) (a : String) (b : BanState) (e2 : Nat) :
    (condSetBan now st a b e2).strikes = st.strikes := by
  unfold condSetBan; split <;> rfl

theorem condSetBan_rate (now : Nat) (st : Store) (a : String) (b : BanState) (e2 : Nat) :
    (condSetBan now st a b e2).rate = st.rate := by
  unfold condSetBan; split <;> rfl

theorem condSetBan_ban_self (now : Nat) (st : Store) (a : String) (b : BanState) (e2 : Nat) :
    (condSetBan now st a b e2).ban a =
      if strongerThan (banRank (some (b, e2))) (banRank (currentBan now st a)) then
        some (b, e2)
      else st.ban a := by
  unfold condSetBan; split <;> simp_all

theorem confirmBlock_strikes_self (now : Nat) (st : Store) (a : String) :
    (confirmBlock now st a).strikes a
      = some (currentStrikes now st a + 1, now + strikeTTL) := by
  show (condSetBan now _ a _ _).strikes a = _
  rw [condSetBan_strikes]
  simp

theorem confirmBlock_ban_self (now : Nat) (st : Store) (a : String) :
    (confirmBlock now st a).ban a =
      if strongerThan (2, now + banTTLFor (currentStrikes now st a + 1))
          (banRank (currentBan now st a)) then
        some (BanState.CONFIRMED, now + banTTLFor (currentStrikes now st a + 1))
      else st.ban a := by
  show (condSetBan now _ a _ _).ban a = _
  rw [condSetBan_ban_self]
  rfl

theorem confirmBlock_rate (now : Nat) (st : Store) (a : String) :
    (confirmBlock now st a).rate = st.rate := by
  show (condSetBan now _ a _ _).rate = _
  rw [condSetBan_rate]

theorem confirmBlock_ban_of_weak (now : Nat) (st : Store) (a : String)
    (h : (banRank (currentBan now st a)).1 < 2) :
    (confirmBlock now st a).ban a
      = some (BanState.CONFIRMED, now + banTTLFor (currentStrikes now st a + 1)) := by
  rw [confirmBlock_ban_self]
  have hs : strongerThan (2, now + banTTLFor (currentStrikes now st a + 1))
      (banRank (currentBan now st a)) = true := by
    unfold strongerThan
    simp only [Bool.or_eq_true, decide_eq_true_eq]
    left
    simpa using h
  rw [hs]
  simp

theorem banTTLFor_low (n : Nat) (_h1 : 1 ≤ n) (h2 : n ≤ 2) : banTTLFor n = 3600 := by
  simp [banTTLFor, h2]

theorem banTTLFor_high (n : Nat) (h3 : 3 ≤ n) : banTTLFor n = 86400 := by
  have : ¬ n ≤ 2 := by omega
  simp [banTTLFor, this]

/-- C1: on every confirm transition the Enforcer increments the actor's
StrikeCounter (creating it with a 7-day TTL if absent, otherwise extending
the TTL to 7 days from now) and selects the ban TTL from the post-increment
value: a post-increment count of 1 or 2 gives a CONFIRMED ban TTL of 3600s,
a count of 3 or more gives 86400s (the ban write shown for any current ban
weaker than CONFIRMED, per the spec's conditional-write rule). -/
theorem confirm_increments_strike_and_selects_ttl (now : Nat) (st : Store) (a : String) :
    (confirmBlock now st a).strikes a
        = some (currentStrikes now st a + 1, now + strikeTTL) ∧
    ((banRank (currentBan now st a)).1 < 2 →
      (confirmBlock now st a).ban a
        = some (BanState.CONFIRMED, now + banTTLFor (currentStrikes now st a + 1))) ∧
    (∀ n, 1 ≤ n → n ≤ 2 → banTTLFor n = 3600) ∧
    (∀ n, 3 ≤ n → banTTLFor n = 86400) :=
  ⟨confirmBlock_strikes_self now st a,
   fun h => confirmBlock_ban_of_weak now st a h,
   banTTLFor_low, banTTLFor_high⟩

/-- Witness for C1: first confirm for a fresh actor creates strike 1 with a
7-day TTL and a CONFIRMED ban of 3600s. -/
theorem confirm_increments_strike_and_selects_ttl_witness :
    (confirmBlock 0 emptyStore "u").strikes "u" = some (1, 0 + strikeTTL) ∧
    (confirmBlock 0 emptyStore "u").ban "u" = some (BanState.CONFIRMED, 0 + banTTLFor 1) ∧
    banTTLFor 1 = 3600 ∧ banTTLFor 3 = 86400 := by
  have h := confirm_increments_strike_and_selects_ttl 0 emptyStore "u"
  exact ⟨h.1, h.2.1 (by decide), h.2.2.1 1 (by decide) (by decide), h.2.2.2 3 (by decide)⟩

end SentinelAuditor

namespace SentinelAuditor

theorem banTTLFor_mono (m n : Nat) (h : m ≤ n) : banTTLFor m ≤ banTTLFor n := by
  unfold banTTLFor
  split_ifs <;> omega

theorem currentStrikes_after_confirm (now : Nat) (st : Store) (a : String) :
    currentStrikes now (confirmBlock now st a) a = currentStrikes now st a + 1 := by
  unfold currentStrikes
  rw [confirmBlock_strikes_self]
  have : now < now + strikeTTL := by unfold strikeTTL; omega
  simp only [this, if_true]
  rfl

theorem banRank_confirmed (e : Nat) : banRank (some (BanState.CONFIRMED, e)) = (2, e) := rfl

theorem strongerThan_same (x y : Nat) : strongerThan (2, x) (2, y) = decide (y < x) := by
  simp [strongerThan]

/-- C2: two concurrent confirm-BLOCK writes for the same actor, each a
single atomic conditional mutation ordered by ban strength NONE <
PROVISIONAL < CONFIRMED plus TTL, converge (in every interleaving of the
two atomic operations, which at a common timestamp coincide with this
sequential composition) to one CONFIRMED state whose TTL corresponds to the
higher, monotonic strike count: neither the second strike increment nor the
stronger ban TTL is lost. -/
theorem concurrent_confirms_converge (now : Nat) (st : Store) (a : String)
    (hban : (banRank (currentBan now st a)).1 < 2) :
    (confirmBlock now (confirmBlock now st a) a).strikes a
        = some (currentStrikes now st a + 2, now + strikeTTL) ∧
    (confirmBlock now (confirmBlock now st a) a).ban a
        = some (BanState.CONFIRMED, now + banTTLFor (currentStrikes now st a + 2)) := by
  have hs1 := confirmBlock_strikes_self now st a
  have hb1 := confirmBlock_ban_of_weak now st a hban
  have hc2 := currentStrikes_after_confirm now st a
  have h12 : currentStrikes now st a + 1 + 1 = currentStrikes now st a + 2 := rfl
  constructor
  · rw [confirmBlock_strikes_self, hc2]
  · rw [confirmBlock_ban_self, hc2, h12]
    have hcb : currentBan now (confirmBlock now st a) a
        = some (BanState.CONFIRMED, now + banTTLFor (currentStrikes now st a + 1)) := by
      unfold currentBan
      rw [hb1]
      have : now < now + banTTLFor (currentStrikes now st a + 1) := by
        unfold banTTLFor; split <;> omega
      simp [this]
    rw [hcb, banRank_confirmed, strongerThan_same]
    by_cases hlt : now + banTTLFor (currentStrikes now st a + 1)
        < now + banTTLFor (currentStrikes now st a + 2)
    · rw [decide_eq_true hlt]
      simp
    · have hle := banTTLFor_mono (currentStrikes now st a + 1)
        (currentStrikes now st a + 2) (by omega)
      have heq : banTTLFor (currentStrikes now st a + 1)
          = banTTLFor (currentStrikes now st a + 2) := by omega
      rw [decide_eq_false hlt]
      simp only [Bool.false_eq_true, if_false]
      rw [hb1, heq]

/-- Witness for C2: from a provisional ban and no strikes, two concurrent
confirms end in strike count 2 and one CONFIRMED ban of TTL 3600s. -/
theorem concurrent_confirms_converge_witness :
    (confirmBlock 0 (confirmBlock 0 stP "u1") "u1").strikes "u1" = some (2, 0 + strikeTTL) ∧
    (confirmBlock 0 (confirmBlock 0 stP "u1") "u1").ban "u1"
        = some (BanState.CONFIRMED, 0 + banTTLFor 2) := by
  have h := concurrent_confirms_converge 0 stP "u1" (by decide)
  exact ⟨h.1, h.2⟩

/-- C4: for every actor and every present ban state (PROVISIONAL or
CONFIRMED), the pardon triggered by a final ALLOW verdict deletes the ban
key and leaves the whole strike table (and the rate table) unchanged:
strikes are never decremented by a pardon. -/
theorem pardon_removes_ban_preserves_strikes (now : Nat) (st : Store) (a : String) (v : Verdict)
    (hv : v.decision = Decision.ALLOW)
    (hban : (currentBan now st a).isSome = true) :
    (enforce now st a v).ban a = none ∧
    (enforce now st a v).strikes = st.strikes ∧
    (enforce now st a v).rate = st.rate := by
  unfold enforce
  rw [hv]
  simp only [hban, if_true]
  refine ⟨?_, rfl, rfl⟩
  unfold pardon
  simp

/-- Witness for C4: pardoning actor u1's provisional ban removes the ban
key and keeps the strike table as it was. -/
theorem pardon_removes_ban_preserves_strikes_witness :
    (enforce 0 stP "u1" v0).ban "u1" = none ∧
    (enforce 0 stP "u1" v0).strikes = stP.strikes ∧
    (enforce 0 stP "u1" v0).rate = stP.rate :=
  pardon_removes_ban_preserves_strikes 0 stP "u1" v0 (by decide) (by decide)

end SentinelAuditor

namespace SentinelAuditor

theorem admissionRun_fst_cons (t : Nat) (ts2 : List Nat) (st : Store) (a : String) :
    (admissionRun (t :: ts2) st a).1
      = (admission t st a).1 :: (admissionRun ts2 (admission t st a).2 a).1 := rfl

theorem admissionRun_snd_cons (t : Nat) (ts2 : List Nat) (st : Store) (a : String) :
    (admissionRun (t :: ts2) st a).2 = (admissionRun ts2 (admission t st a).2 a).2 := rfl

theorem admissionRun_in_window (a : String) (ts : List Nat) :
    ∀ (st : Store) (c exp2 : Nat), st.rate a = some (c, exp2) → c ≤ 5 →
    (∀ t ∈ ts, t < exp2) →
    (admissionRun ts st a).2.rate a = some (min (c + ts.length) 5, exp2) ∧
    (admissionRun ts st a).1.count true = min (c + ts.length) 5 - c := by
  induction ts with
  | nil =>
    intro st c exp2 h hc5 _
    have hmin : min (c + List.length ([] : List Nat)) 5 = c := by
      simp only [List.length_nil]
      omega
    rw [hmin]
    refine ⟨?_, ?_⟩
    · show st.rate a = some (c, exp2)
      exact h
    · show List.count true [] = c - c
      simp
  | cons t ts2 ih =>
    intro st c exp2 h hc5 hall
    have ht : t < exp2 := hall t (by simp)
    have hall2 : ∀ x ∈ ts2, x < exp2 := fun x hx => hall x (by simp [hx])
    by_cases hlt : c < 5
    · have hstep : admission t st a
          = (true, { st with rate := fun u => if u = a then some (c + 1, exp2) else st.rate u }) := by
        simp [admission, h, ht, hlt]
      have h1 : (admission t st a).1 = true := by rw [hstep]
      have h2 : (admission t st a).2
          = { st with rate := fun u => if u = a then some (c + 1, exp2) else st.rate u } := by
        rw [hstep]
      have hrec := ih { st with rate := fun u => if u = a then some (c + 1, exp2) else st.rate u }
        (c + 1) exp2 (by simp) (by omega) hall2
      refine ⟨?_, ?_⟩
      · rw [admissionRun_snd_cons, h2, hrec.1]
        have : min (c + 1 + ts2.length) 5 = min (c + (t :: ts2).length) 5 := by
          simp only [List.length_cons]
          omega
        rw [this]
      · rw [admissionRun_fst_cons, h1, h2, List.count_cons, hrec.2]
        simp only [List.length_cons, beq_self_eq_true, if_true]
        omega
    · have hstep : admission t st a = (false, st) := by
        simp [admission, h, ht, hlt]
      have h1 : (admission t st a).1 = false := by rw [hstep]
      have h2 : (admission t st a).2 = st := by rw [hstep]
      have hrec := ih st c exp2 h hc5 hall2
      refine ⟨?_, ?_⟩
      · rw [admissionRun_snd_cons, h2, hrec.1]
        have : min (c + ts2.length) 5 = min (c + (t :: ts2).length) 5 := by
          simp only [List.length_cons]
          omega
        rw [this]
      · rw [admissionRun_fst_cons, h1, h2, List.count_cons, hrec.2]
        simp only [List.length_cons]
        have : (false == true) = false := rfl
        rw [this]
        simp only [Bool.false_eq_true, if_false]
        omega

end SentinelAuditor

namespace SentinelAuditor

/-- C6: for every actor, starting a fresh window, at most 5 of the requests
issued within the rolling 60-second window are admitted; with 5 or more
requests after the first, any further request inside the window returns
allowed=false and leaves the store untouched; and any request from 60
seconds after the first admitted request onward is admitted again. -/
theorem rate_limit_sliding_window (st : Store) (a : String) (t0 : Nat) (ts : List Nat)
    (h0 : st.rate a = none)
    (hts : ∀ t ∈ ts, t < t0 + 60) :
    (admissionRun (t0 :: ts) st a).1.count true = min (ts.length + 1) 5 ∧
    (admissionRun (t0 :: ts) st a).2.rate a = some (min (ts.length + 1) 5, t0 + 60) ∧
    (∀ t, t < t0 + 60 → 4 ≤ ts.length →
      admission t (admissionRun (t0 :: ts) st a).2 a
        = (false, (admissionRun (t0 :: ts) st a).2)) ∧
    (∀ t2, t0 + 60 ≤ t2 →
      (admission t2 (admissionRun (t0 :: ts) st a).2 a).1 = true ∧
      (admission t2 (admissionRun (t0 :: ts) st a).2 a).2.rate a = some (1, t2 + 60)) := by
  have hstep : admission t0 st a
      = (true, { st with rate := fun u => if u = a then some (1, t0 + 60) else st.rate u }) := by
    simp [admission, h0]
  have h1 : (admission t0 st a).1 = true := by rw [hstep]
  have h2 : (admission t0 st a).2
      = { st with rate := fun u => if u = a then some (1, t0 + 60) else st.rate u } := by
    rw [hstep]
  have hw := admissionRun_in_window a ts
    { st with rate := fun u => if u = a then some (1, t0 + 60) else st.rate u }
    1 (t0 + 60) (by simp) (by omega) hts
  have hcomm : 1 + ts.length = ts.length + 1 := by omega
  have hrate : (admissionRun (t0 :: ts) st a).2.rate a
      = some (min (ts.length + 1) 5, t0 + 60) := by
    rw [admissionRun_snd_cons, h2, hw.1, hcomm]
  refine ⟨?_, hrate, ?_, ?_⟩
  · rw [admissionRun_fst_cons, h1, h2, List.count_cons, hw.2]
    simp only [beq_self_eq_true, if_true]
    omega
  · intro t ht hlen
    have hm5 : min (ts.length + 1) 5 = 5 := by omega
    rw [hm5] at hrate
    simp [admission, hrate, ht]
  · intro t2 ht2
    have hnot : ¬ t2 < t0 + 60 := by omega
    constructor
    · simp [admission, hrate, hnot]
    · simp [admission, hrate, hnot]

/-- Witness for C6: six requests inside one window admit exactly five, a
further in-window request at t=59 is rejected without mutation, and a
request at t=60 is admitted with a fresh window. -/
theorem rate_limit_sliding_window_witness :
    (admissionRun (0 :: [10, 20, 30, 40, 50]) emptyStore "u").1.count true
        = min ([10, 20, 30, 40, 50].length + 1) 5 ∧
    admission 59 (admissionRun (0 :: [10, 20, 30, 40, 50]) emptyStore "u").2 "u"
        = (false, (admissionRun (0 :: [10, 20, 30, 40, 50]) emptyStore "u").2) ∧
    (admission 60 (admissionRun (0 :: [10, 20, 30, 40, 50]) emptyStore "u").2 "u").1 = true := by
  have h := rate_limit_sliding_window emptyStore "u" 0 [10, 20, 30, 40, 50] rfl (by decide)
  exact ⟨h.1, h.2.2.1 59 (by decide) (by decide), (h.2.2.2 60 (by decide)).1⟩

end SentinelAuditor

namespace SentinelAuditor

theorem process_of_trace (env : Env) (now : Nat) (s : SysState) (e : Event) (tr : Trace)
    (h : s.traces e.eventId = some tr) : process env now s e = (s, tr) := by
  unfold process
  rw [h]

theorem process_of_new (env : Env) (now : Nat) (s : SysState) (e : Event)
    (h : s.traces e.eventId = none) :
    process env now s e
      = (⟨enforce now s.store e.actorId
            (verdictPhase (pipelineJudgment env e)
              (env.escalate e (pipelinePolicies env e))).1,
          fun i => if i = e.eventId then
              some ⟨e.eventId,
                ⟨"TRIAGE", "COMPLETED", StageOutput.triageOut (runTriage (env.triageRaw e) e)⟩ ::
                ⟨"INTEL", "COMPLETED", StageOutput.policiesOut (pipelinePolicies env e)⟩ ::
                (verdictPhase (pipelineJudgment env e)
                  (env.escalate e (pipelinePolicies env e))).2⟩
            else s.traces i⟩,
         ⟨e.eventId,
          ⟨"TRIAGE", "COMPLETED", StageOutput.triageOut (runTriage (env.triageRaw e) e)⟩ ::
          ⟨"INTEL", "COMPLETED", StageOutput.policiesOut (pipelinePolicies env e)⟩ ::
          (verdictPhase (pipelineJudgment env e)
            (env.escalate e (pipelinePolicies env e))).2⟩) := by
  unfold process
  rw [h]
  rfl

/-- C3: processing is idempotent on the event identifier — if a trace
already exists for the event identifier, `process` returns the existing
trace with the state untouched; and re-processing the event produced by any
run (under any capabilities and at any time) returns that run's state and
trace unchanged, so two runs yield one trace and at most one Enforcer
mutation. -/
theorem process_idempotent (env env2 : Env) (now now2 : Nat) (s : SysState) (e : Event) :
    (∀ tr, s.traces e.eventId = some tr → process env now s e = (s, tr)) ∧
    process env2 now2 (process env now s e).1 e = process env now s e := by
  refine ⟨fun tr h => process_of_trace env now s e tr h, ?_⟩
  cases hcase : s.traces e.eventId with
  | some tr =>
    rw [process_of_trace env now s e tr hcase]
    exact process_of_trace env2 now2 s e tr hcase
  | none =>
    rw [process_of_new env now s e hcase]
    apply process_of_trace
    simp

/-- Witness for C3: re-delivery of event e1 whose trace is already stored
returns the stored trace and leaves the state unchanged, and a second
processing of a fresh run is a no-op. -/
theorem process_idempotent_witness :
    process env0 0 s0 ev0 = (s0, tr0) ∧
    process env0 0 (process env0 0 s1 ev0).1 ev0 = process env0 0 s1 ev0 := by
  have h := process_idempotent env0 env0 0 0 s0 ev0
  have h2 := process_idempotent env0 env0 0 0 s1 ev0
  exact ⟨h.1 tr0 (by decide), h2.2⟩

theorem verdictPhase_low (jv : Verdict) (esc : Verdict → Verdict) (h : jv.confidence < 90) :
    verdictPhase jv esc
      = (esc jv, [⟨"JUDGE", "COMPLETED", StageOutput.verdictOut jv⟩,
                  ⟨"CISO", "COMPLETED", StageOutput.verdictOut (esc jv)⟩]) := by
  unfold verdictPhase
  rw [if_pos h]

theorem verdictPhase_high (jv : Verdict) (esc : Verdict → Verdict) (h : ¬ jv.confidence < 90) :
    verdictPhase jv esc = (jv, [⟨"JUDGE", "COMPLETED", StageOutput.verdictOut jv⟩]) := by
  unfold verdictPhase
  rw [if_neg h]

/-- C5: escalation runs if and only if the Judgment verdict's confidence is
strictly below 90; when it runs, the Escalation verdict — whatever its own
confidence, with no further tier — fully determines the Enforcer transition
and both verdicts are recorded in the trace; otherwise the Judgment verdict
drives enforcement and no CISO record exists. -/
theorem escalation_gate (env : Env) (now : Nat) (s : SysState) (e : Event)
    (hnew : s.traces e.eventId = none) :
    ((process env now s e).2.records.any (fun r => r.stage == "CISO") = true
        ↔ (pipelineJudgment env e).confidence < 90) ∧
    ((pipelineJudgment env e).confidence < 90 →
      (process env now s e).1.store
          = enforce now s.store e.actorId
              (env.escalate e (pipelinePolicies env e) (pipelineJudgment env e)) ∧
      (process env now s e).2.records
          = [⟨"TRIAGE", "COMPLETED", StageOutput.triageOut (runTriage (env.triageRaw e) e)⟩,
             ⟨"INTEL", "COMPLETED", StageOutput.policiesOut (pipelinePolicies env e)⟩,
             ⟨"JUDGE", "COMPLETED", StageOutput.verdictOut (pipelineJudgment env e)⟩,
             ⟨"CISO", "COMPLETED", StageOutput.verdictOut
                 (env.escalate e (pipelinePolicies env e) (pipelineJudgment env e))⟩]) ∧
    (90 ≤ (pipelineJudgment env e).confidence →
      (process env now s e).1.store = enforce now s.store e.actorId (pipelineJudgment env e) ∧
      (process env now s e).2.records
          = [⟨"TRIAGE", "COMPLETED", StageOutput.triageOut (runTriage (env.triageRaw e) e)⟩,
             ⟨"INTEL", "COMPLETED", StageOutput.policiesOut (pipelinePolicies env e)⟩,
             ⟨"JUDGE", "COMPLETED", StageOutput.verdictOut (pipelineJudgment env e)⟩]) := by
  rw [process_of_new env now s e hnew]
  by_cases hconf : (pipelineJudgment env e).confidence < 90
  · rw [verdictPhase_low _ _ hconf]
    dsimp only
    refine ⟨?_, fun _ => ⟨rfl, rfl⟩, fun hge => absurd hconf (by omega)⟩
    simp [hconf]
  · rw [verdictPhase_high _ _ hconf]
    dsimp only
    refine ⟨?_, fun hlow => absurd hlow hconf, fun _ => ⟨rfl, rfl⟩⟩
    simp [hconf]

/-- Witness for C5: with a Judgment stand-in at confidence 70, the CISO
record appears in the trace and the Escalation verdict (confidence 40)
drives the Enforcer transition. -/
theorem escalation_gate_witness :
    (process envLow 0 s1 ev0).1.store
        = enforce 0 s1.store ev0.actorId
            (envLow.escalate ev0 (pipelinePolicies envLow ev0) (pipelineJudgment envLow ev0)) ∧
    ((process envLow 0 s1 ev0).2.records.any (fun r => r.stage == "CISO") = true
        ↔ (pipelineJudgment envLow ev0).confidence < 90) := by
  have h := escalation_gate envLow 0 s1 ev0 rfl
  exact ⟨(h.2.1 (by decide)).1, h.1⟩

/-- C8: when the Triage model output fails to parse, the stage falls back to
the deterministic heuristic extraction (action type + country + amount
bracket), still yields a riskSummary/searchTerms result recorded as the
first trace entry, and the pipeline runs to completion and persists the
trace — a ParseFailure is never fatal. -/
theorem triage_fallback_recovers (env : Env) (now : Nat) (s : SysState) (e : Event)
    (hnew : s.traces e.eventId = none)
    (hfail : env.triageRaw e = none) :
    runTriage (env.triageRaw e) e = heuristicTriage e ∧
    (heuristicTriage e).searchTerms = [e.actionType, e.country, amountBracket e.amount] ∧
    (heuristicTriage e).searchTerms ≠ [] ∧
    (process env now s e).2.records.head?
        = some ⟨"TRIAGE", "COMPLETED", StageOutput.triageOut (heuristicTriage e)⟩ ∧
    (process env now s e).1.traces e.eventId = some (process env now s e).2 := by
  refine ⟨by rw [hfail]; rfl, rfl, by simp [heuristicTriage], ?_, ?_⟩
  · rw [process_of_new env now s e hnew]
    dsimp only
    rw [hfail]
    rfl
  · rw [process_of_new env now s e hnew]
    dsimp only
    simp

/-- Witness for C8: under a stand-in whose Triage output never parses, the
pipeline for event e1 still persists a complete trace whose first record is
the heuristic extraction. -/
theorem triage_fallback_recovers_witness :
    runTriage (env0.triageRaw ev0) ev0 = heuristicTriage ev0 ∧
    (process env0 0 s1 ev0).2.records.head?
        = some ⟨"TRIAGE", "COMPLETED", StageOutput.triageOut (heuristicTriage ev0)⟩ ∧
    (process env0 0 s1 ev0).1.traces ev0.eventId = some (process env0 0 s1 ev0).2 := by
  have h := triage_fallback_recovers env0 0 s1 ev0 rfl rfl
  exact ⟨h.1, h.2.2.2.1, h.2.2.2.2⟩

end SentinelAuditor

namespace SentinelAuditor

/-- C7 counterexample: the Rate Limiter key is NOT free of an
instance-local prefix — for actor U1 it is `auditor:rate_limit:U1`, which
carries this system's private `auditor:` namespace marker, refuting the
claim that all three record types use unprefixed shared key names. -/
theorem shared_keyspace_counterexample : isInstanceLocal (rateLimitKey "U1") = true := by
  decide

/-- C7 (amended): the BanRecord (`blacklist:`) and StrikeCounter
(`global_strikes:`) keys are free of any instance-local prefix, so both
systems observe the same ban/strike state; the Rate Limiter key, by
contrast, is namespaced with the instance-local `auditor:rate_limit:`
marker private to this system. -/
theorem shared_keyspace_amended (u : String) :
    isInstanceLocal (blacklistKey u) = false ∧
    isInstanceLocal (strikesKey u) = false ∧
    isInstanceLocal (rateLimitKey u) = true := by
  refine ⟨?_, ?_, ?_⟩
  · show List.isPrefixOf "auditor:".data ("blacklist:" ++ u).data = false
    rw [String.data_append]
    rfl
  · show List.isPrefixOf "auditor:".data ("global_strikes:" ++ u).data = false
    rw [String.data_append]
    rfl
  · show List.isPrefixOf "auditor:".data ("auditor:rate_limit:" ++ u).data = true
    rw [String.data_append]
    rfl

end SentinelAuditor

namespace Dashboard

/-- C9: if SUPABASE_JWT_SECRET is unset (or empty, both falsy in the
source), `verifyJwt` returns valid=true for every token regardless of the
actual signature status, so cryptographic verification is silently skipped;
a request can be rejected for an invalid signature only when a non-empty
secret is configured and `jwtVerify` fails. -/
theorem verifyJwt_skips_without_secret (f : String → Bool) (token : String) :
    verifyJwt none f token = true ∧
    verifyJwt (some "") f token = true ∧
    (∀ envSecret, verifyJwt envSecret f token = false →
      ∃ s, envSecret = some s ∧ s ≠ "" ∧ f token = false) := by
  refine ⟨rfl, rfl, ?_⟩
  intro envSecret h
  match envSecret with
  | none => simp [verifyJwt, getJwtSecret] at h
  | some s =>
    by_cases hs : s = ""
    · rw [hs] at h
      simp [verifyJwt, getJwtSecret] at h
    · refine ⟨s, rfl, hs, ?_⟩
      have hdata : s.data ≠ [] := by
        intro hd
        exact hs (String.ext (hd.trans rfl))
      have hlen : (textEncode s).length ≠ 0 := by
        intro hzero
        unfold textEncode at hzero
        rw [List.length_map] at hzero
        exact hdata (List.length_eq_zero.mp hzero)
      simp only [verifyJwt, getJwtSecret] at h
      simp only [hs, if_false, hlen] at h
      exact h

/-- Witness for C9: with no secret every token passes, and a rejection
forces a configured non-empty secret with a failing signature check. -/
theorem verifyJwt_skips_without_secret_witness :
    verifyJwt none (fun _ => false) "tok" = true ∧
    ∃ s, (some "k" : Option String) = some s ∧ s ≠ "" ∧ (fun _ : String => false) "tok" = false := by
  have h := verifyJwt_skips_without_secret (fun _ => false) "tok"
  exact ⟨h.1, h.2.2 (some "k") rfl⟩

end Dashboard

namespace Dashboard

theorem hasEventId_false_not_mem (m : List LogEntry) (eid : String)
    (h : hasEventId m eid = false) : eid ∉ m.map (fun l => l.event_id) := by
  intro hmem
  rw [List.mem_map] at hmem
  obtain ⟨x, hx, hxe⟩ := hmem
  have htrue : hasEventId m eid = true := by
    unfold hasEventId
    rw [List.any_eq_true]
    exact ⟨x, hx, by simp [hxe]⟩
  rw [h] at htrue
  cases htrue

theorem insertIfAbsent_nodup (m : List LogEntry) (l : LogEntry)
    (h : (m.map (fun x => x.event_id)).Nodup) :
    ((insertIfAbsent m l).map (fun x => x.event_id)).Nodup := by
  unfold insertIfAbsent
  cases hc : hasEventId m l.event_id with
  | true =>
    simpa using h
  | false =>
    rw [if_neg (by simp)]
    rw [List.map_append]
    rw [List.nodup_append]
    refine ⟨h, List.nodup_singleton _, ?_⟩
    intro a ha hb
    simp only [List.map_cons, List.map_nil, List.mem_singleton] at hb
    subst hb
    exact hasEventId_false_not_mem m l.event_id hc ha

theorem applyFetch_nodup (rows : List LogEntry) :
    ∀ m : List LogEntry, (m.map (fun x => x.event_id)).Nodup →
      ((applyFetch m rows).map (fun x => x.event_id)).Nodup := by
  induction rows with
  | nil => intro m h; exact h
  | cons r rows2 ih => intro m h; exact ih _ (insertIfAbsent_nodup m r h)

theorem applyUpdate_nodup (m : List LogEntry) (u : DashUpdate)
    (h : (m.map (fun x => x.event_id)).Nodup) :
    ((applyUpdate m u).map (fun x => x.event_id)).Nodup := by
  cases u with
  | fetch rows => exact applyFetch_nodup rows m h
  | realtimeInsert l => exact insertIfAbsent_nodup m l h

theorem foldl_updates_nodup (updates : List DashUpdate) :
    ∀ m : List LogEntry, (m.map (fun x => x.event_id)).Nodup →
      ((updates.foldl applyUpdate m).map (fun x => x.event_id)).Nodup := by
  induction updates with
  | nil => intro m h; exact h
  | cons u us ih => intro m h; exact ih _ (applyUpdate_nodup m u h)

theorem renderLogs_nodup (m : List LogEntry)
    (h : (m.map (fun x => x.event_id)).Nodup) :
    ((renderLogs m).map (fun x => x.event_id)).Nodup := by
  have hperm : (m.mergeSort newerFirst).Perm m := List.mergeSort_perm m newerFirst
  have h2 : ((m.mergeSort newerFirst).map (fun x => x.event_id)).Nodup :=
    ((hperm.map (fun x => x.event_id)).symm).nodup h
  unfold renderLogs
  rw [List.map_take]
  exact (List.take_sublist 25 _).nodup h2

theorem newerFirst_trans (a b c : LogEntry) :
    newerFirst a b = true → newerFirst b c = true → newerFirst a c = true := by
  simp only [newerFirst, decide_eq_true_eq]
  omega

theorem newerFirst_total (a b : LogEntry) : (newerFirst a b || newerFirst b a) = true := by
  simp only [newerFirst, Bool.or_eq_true, decide_eq_true_eq]
  omega

theorem renderLogs_sorted (m : List LogEntry) :
    List.Pairwise (fun a b : LogEntry => b.created_at ≤ a.created_at) (renderLogs m) := by
  have hs := @List.sorted_mergeSort LogEntry newerFirst newerFirst_trans newerFirst_total m
  have ht : List.Pairwise (fun a b : LogEntry => newerFirst a b = true) (renderLogs m) :=
    List.Pairwise.sublist (List.take_sublist 25 _) hs
  exact ht.imp (fun hab => by simpa [newerFirst] using hab)

theorem renderLogs_length (m : List LogEntry) : (renderLogs m).length ≤ 25 := by
  unfold renderLogs
  rw [List.length_take]
  omega

/-- C10: after every sequence of state updates (initial fetch merges and
realtime INSERTs) starting from the empty map, the rendered log list holds
at most one entry per event_id, is sorted by created_at descending (newest
first), and has length at most 25; moreover an update whose event_id is
already present leaves the map unchanged. -/
theorem dashboard_feed_invariants (updates : List DashUpdate) :
    ((renderLogs (updates.foldl applyUpdate [])).map (fun l => l.event_id)).Nodup ∧
    List.Pairwise (fun a b : LogEntry => b.created_at ≤ a.created_at)
      (renderLogs (updates.foldl applyUpdate [])) ∧
    (renderLogs (updates.foldl applyUpdate [])).length ≤ 25 ∧
    (∀ (m : List LogEntry) (l : LogEntry),
      hasEventId m l.event_id = true → insertIfAbsent m l = m) := by
  refine ⟨renderLogs_nodup _ (foldl_updates_nodup updates [] (by simp)),
    renderLogs_sorted _, renderLogs_length _, ?_⟩
  intro m l h
  unfold insertIfAbsent
  rw [if_pos h]

/-- Witness for C10: inserting a row whose event_id is already in the map
leaves the map unchanged. -/
theorem dashboard_feed_invariants_witness :
    insertIfAbsent [⟨1, 100, "evA"⟩] ⟨2, 200, "evA"⟩ = [⟨1, 100, "evA"⟩] :=
  (dashboard_feed_invariants []).2.2.2 [⟨1, 100, "evA"⟩] ⟨2, 200, "evA"⟩ (by decide)

end Dashboard
